import Mathlib

/-! Verification of the replay-buffer engine of `goplumb`.

The repository captures its standard input through an `io.TeeReader` into a
growing in-memory buffer, and on every submitted command rewinds: it builds an
`io.MultiReader` over a copy of the captured bytes followed by the live tee, and
feeds that to the subprocess.  We embed the byte-level behaviour of those
readers, the history log, shell resolution, the startup check, the interrupt
transcript and the run coordinator as pure functions, and prove the stated
properties about them. -/

namespace GoPlumb

/-- State of the capture tee (`BufferedReader` of `src/main.go`,
`InputBuffer` / `inputBuffer` of the other units): `pos` is how many bytes of
the raw source have been consumed, and `buf` is the capture buffer to which
`io.TeeReader` has appended every consumed byte.  The raw source itself is a
finite byte list `src` passed to each operation. -/
structure TeeState where
  pos : Nat
  buf : List Nat
deriving DecidableEq

/-- One read of up to `k` bytes through the tee (`io.TeeReader.Read`): the
chunk delivered by the raw source at the current cursor is appended to the
capture buffer and handed to the caller. -/
def teeRead (src : List Nat) (st : TeeState) (k : Nat) : List Nat × TeeState :=
  let chunk := (src.drop st.pos).take k
  (chunk, ⟨st.pos + chunk.length, st.buf ++ chunk⟩)

/-- A sequence of tee reads with the given buffer sizes, collecting the
delivered chunks. -/
def teeRun (src : List Nat) (st : TeeState) : List Nat → List (List Nat) × TeeState
  | [] => ([], st)
  | k :: ks =>
    let p := teeRead src st k
    let q := teeRun src p.2 ks
    (p.1 :: q.1, q.2)

/-- Snapshot of everything captured so far (`InputBuffer.Buffer`,
`bufferedReader.Buffer`: `bytes.NewBuffer(br.buf.Bytes())`): a copy of the
capture buffer's current contents. -/
def snapshot (st : TeeState) : List Nat := st.buf

/-- State of a replay reader: the still-undelivered part of the snapshot taken
at creation time, plus the live tee it continues with. -/
structure ReplayState where
  snap : List Nat
  tee : TeeState
deriving DecidableEq

/-- `BufferedReader.Rewind` (src/main.go): build a fresh
`io.MultiReader(bytes.NewBuffer(br.buf.Bytes()), br.tr)` — a snapshot of the
capture buffer followed by the live tee.  `inputBuffer.Reader` of
src/unnamed/part_002 builds the same composition. -/
def Rewind (st : TeeState) : ReplayState := ⟨snapshot st, st⟩

/-- One read of up to `k` bytes from the replay reader (`BufferedReader.Read`
delegating to the `io.MultiReader`): while the snapshot buffer is non-empty it
is drained; once it is exhausted the `MultiReader` advances to the live tee
within the same call. -/
def replayRead (src : List Nat) (st : ReplayState) (k : Nat) : List Nat × ReplayState :=
  match st.snap with
  | [] =>
    let p := teeRead src st.tee k
    (p.1, ⟨[], p.2⟩)
  | s :: tl =>
    ((s :: tl).take k, ⟨(s :: tl).drop k, st.tee⟩)

/-- A sequence of replay reads with the given buffer sizes, collecting the
delivered chunks. -/
def replayRun (src : List Nat) (st : ReplayState) : List Nat → List (List Nat) × ReplayState
  | [] => ([], st)
  | k :: ks =>
    let p := replayRead src st k
    let q := replayRun src p.2 ks
    (p.1 :: q.1, q.2)

/-- Bytes a replay reader has not yet delivered: the unread part of its
snapshot, then the not-yet-captured part of the raw source. -/
def restOf (src : List Nat) (st : ReplayState) : List Nat :=
  st.snap ++ src.drop st.tee.pos

/-- Primitive actions of the run coordinator of src/unnamed/part_000, with runs
numbered in order of creation: `start i` launches run `i`'s goroutines
(`App.Start`), `cancelRun i` cancels its context (`a.cancel()` inside
`App.Stop`), and `waitRun i` is the return of `a.wg.Wait()` — the point at
which run `i`'s process has exited and both of its goroutines have finished. -/
inductive RunAct where
  | start (i : Nat)
  | cancelRun (i : Nat)
  | waitRun (i : Nat)
deriving DecidableEq

/-- Action trace of the part_000 coordinator after `n` submit events: `App.Run`
starts run 0, and every KeyEnter handler runs `a.Stop()` (cancel, close the
pipe writer, block in `wg.Wait()`) and only then `a.Start()` for the next
run. -/
def appTrace : Nat → List RunAct
  | 0 => [RunAct.start 0]
  | n + 1 => appTrace n ++ [RunAct.cancelRun n, RunAct.waitRun n, RunAct.start (n + 1)]

/-- Effect of one coordinator action on the set of alive runs: a run is alive
from its `start` until its `waitRun` has returned (after `wg.Wait()` none of
its goroutines can touch the live tail or the sink any more). -/
def aliveStep (s : List Nat) (a : RunAct) : List Nat :=
  match a with
  | RunAct.start i => i :: s
  | RunAct.cancelRun _ => s
  | RunAct.waitRun i => s.erase i

/-- Runs possibly alive after a prefix of the coordinator trace. -/
def aliveAfter (tr : List RunAct) : List Nat :=
  tr.foldl aliveStep []

/-- Errors of the Go `io` interface as the model needs them: end-of-stream
(`io.EOF`) or any other read failure. -/
inductive GoErr where
  | eof
  | failure (msg : String)
deriving DecidableEq

/-- One read of the raw source: while bytes remain it delivers up to `k` of
them with no error; once exhausted it returns the source's terminal error
`term` (for a regular end of input, `GoErr.eof`). -/
def rawRead (src : List Nat) (term : GoErr) (pos k : Nat) : List Nat × Option GoErr :=
  if src.length ≤ pos then ([], some term)
  else ((src.drop pos).take k, none)

/-- State of the error-aware tee of src/unnamed/part_001 (`bufferedReader`,
first unit): capture cursor, capture buffer and the recorded `eof` flag. -/
structure TeeEState where
  pos : Nat
  buf : List Nat
  eof : Bool
deriving DecidableEq

/-- `bufferedReader.Read` of src/unnamed/part_001 (first unit): read through
the `io.TeeReader` (the delivered bytes are appended to the capture buffer),
pass the error through unchanged, and set `eof := true` exactly when the error
is `io.EOF`. -/
def teeReadE (src : List Nat) (term : GoErr) (st : TeeEState) (k : Nat) :
    List Nat × Option GoErr × TeeEState :=
  let r := rawRead src term st.pos k
  (r.1, r.2,
    ⟨st.pos + r.1.length, st.buf ++ r.1,
      if r.2 = some GoErr.eof then true else st.eof⟩)

/-- Chunk size of the channel-based reader of src/unnamed/part_001 (second
unit): `const bufSize = 1024 * 16`. -/
def bufSize : Nat := 1024 * 16

/-- State of the goroutine inside `newBufferedReader` (src/unnamed/part_001,
second unit) that pumps `io.MultiReader(bytes.NewBuffer(buf.Bytes()), tr)`
into the channel: the unread part of the snapshot, and the tee's cursor into
the raw source. -/
structure PumpState where
  snap : List Nat
  pos : Nat
deriving DecidableEq

/-- The pump loop of `newBufferedReader`: repeatedly read the multi-reader
with a `bufSize` buffer, forwarding each chunk to the channel; on the first
error, record it (`br.err = err`) and close the channel.  The result is the
list of chunks sent in order and the recorded error.  (Bytes read past the
snapshot are also appended by the tee to the shared capture buffer; that side
effect does not change the delivered stream and is not tracked here.) -/
def pump (src : List Nat) (term : GoErr) (st : PumpState) :
    List (List Nat) × GoErr :=
  match hs : st.snap with
  | _ :: _ =>
    let q := pump src term ⟨st.snap.drop bufSize, st.pos⟩
    (st.snap.take bufSize :: q.1, q.2)
  | [] =>
    if h : st.pos < src.length then
      let c := (src.drop st.pos).take bufSize
      let q := pump src term ⟨[], st.pos + c.length⟩
      (c :: q.1, q.2)
    else ([], term)
termination_by st.snap.length + (src.length - st.pos)
decreasing_by
  · simp only [List.length_drop, hs, List.length_cons, bufSize]
    omega
  · simp only [hs, List.length_nil, List.length_take, List.length_drop, bufSize]
    omega

/-- `bufferedReader.Read` of the channel-based reader (src/unnamed/part_001,
second unit): the `i`-th call receives the `i`-th chunk from the channel; once
the channel is closed it returns `(0, br.err)`. -/
def v2Read (chunks : List (List Nat)) (err : GoErr) (i : Nat) :
    List Nat × Option GoErr :=
  match chunks[i]? with
  | some c => (c, none)
  | none => ([], some err)

/-- `getShell` of src/unnamed/part_001: the `SHELL` environment variable if
set and non-empty, else `exec.LookPath("bash")`, else `exec.LookPath("sh")`,
else the error `shell not found`.  Here `env` is `os.Getenv("SHELL")` (the
empty string when unset) and `lp name` is the path `exec.LookPath` resolves
`name` to (the empty string when no executable is found). -/
def getShell (env : String) (lp : String → String) : Except String String :=
  if env ≠ "" then Except.ok env
  else if lp "bash" ≠ "" then Except.ok (lp "bash")
  else if lp "sh" ≠ "" then Except.ok (lp "sh")
  else Except.error "shell not found"

/-- `getShell` of src/unnamed/part_002 (and of the second unit of
src/unnamed/part_000): the interactive-terminal check on standard input first,
then the same resolution chain. -/
def getShellTTY (istty : Bool) (env : String) (lp : String → String) :
    Except String String :=
  if istty then Except.error "stdin not found"
  else if env ≠ "" then Except.ok env
  else if lp "bash" ≠ "" then Except.ok (lp "bash")
  else if lp "sh" ≠ "" then Except.ok (lp "sh")
  else Except.error "shell not found"

/-- `App.Run` of src/unnamed/part_002: resolve the shell (including the
terminal check); on error return it without entering interactive mode,
otherwise start the first run and enter the interactive UI (`ok`). -/
def appRun (istty : Bool) (env : String) (lp : String → String) :
    Except String Unit :=
  match getShellTTY istty env lp with
  | Except.error e => Except.error e
  | Except.ok _ => Except.ok ()

/-- `main` of src/unnamed/part_002 (same shape in every unit): print the error
and exit with code 1 when `App.Run` fails, exit 0 otherwise. -/
def mainExitCode (istty : Bool) (env : String) (lp : String → String) : Nat :=
  match appRun istty env lp with
  | Except.error _ => 1
  | Except.ok _ => 0

/-- The history log of src/main.go (first unit): navigation cursor and the
submitted command lines. -/
structure History where
  pos : Nat
  lines : List String
deriving DecidableEq

/-- `History.Prev` (src/main.go, first unit): step the cursor back unless it
is already 0, then return the entry at the new cursor.  Go's `h.Lines[h.pos]`
panics when the index is out of range; the lookup is modelled with `[·]?`,
`none` standing for the out-of-bounds access. -/
def History.Prev (h : History) : Option String × History :=
  let p := if 0 < h.pos then h.pos - 1 else h.pos
  (h.lines[p]?, ⟨p, h.lines⟩)

/-- `History.Next` (src/main.go, first unit): step the cursor forward while
`h.pos < len(h.Lines)-1` (Go `int` arithmetic, hence the cast), then return
the entry at the new cursor. -/
def History.Next (h : History) : Option String × History :=
  let p := if (h.pos : Int) < (h.lines.length : Int) - 1 then h.pos + 1 else h.pos
  (h.lines[p]?, ⟨p, h.lines⟩)

/-- `History.Append` (src/main.go, first unit): append the line, then set the
cursor to `len(h.Lines)` — one past the last entry. -/
def History.Append (h : History) (line : String) : History :=
  ⟨(h.lines ++ [line]).length, h.lines ++ [line]⟩

/-- `history.Prev` of src/unnamed/part_000 (also in the second units of
src/main.go and src/unnamed/part_001): identical to `History.Prev` except that
the cursor steps back only while `h.pos > 1`. -/
def History.prevP0 (h : History) : Option String × History :=
  let p := if 1 < h.pos then h.pos - 1 else h.pos
  (h.lines[p]?, ⟨p, h.lines⟩)

/-- `history.Append` of src/unnamed/part_000: set the cursor to the current
length (the index the new entry will get), then append. -/
def History.appendP0 (h : History) (line : String) : History :=
  ⟨h.lines.length, h.lines ++ [line]⟩

/-- History navigation keys (KeyUp / KeyDown). -/
inductive HistOp where
  | prev
  | next
deriving DecidableEq

/-- Run a sequence of navigation calls on the main.go history, collecting each
returned entry. -/
def histRun (h : History) : List HistOp → List (Option String) × History
  | [] => ([], h)
  | op :: ops =>
    let p := match op with | HistOp.prev => h.Prev | HistOp.next => h.Next
    let q := histRun p.2 ops
    (p.1 :: q.1, q.2)

/-- Interactive state read by the Ctrl-C handler of src/main.go: the command
input field's text, the submitted-command history lines, and the accumulated
output of the last run (`a.buf`). -/
structure UIState where
  editText : String
  hist : List String
  outBuf : String
deriving DecidableEq

/-- Go's `strings.TrimSpace`: the string with leading and trailing whitespace
removed. -/
def trimSpace (s : String) : String :=
  String.mk (((s.data.dropWhile Char.isWhitespace).reverse.dropWhile
    Char.isWhitespace).reverse)

/-- `UI.GetInputText` (src/main.go): the trimmed input text, defaulting to
`cat` when it is empty. -/
def GetInputText (editText : String) : String :=
  let text := trimSpace editText
  if text = "" then "cat" else text

/-- User events that change this state: typing replaces the input field's
text; a submit (KeyEnter) appends `GetInputText` to the history
(`a.hi.Append(a.ui.GetInputText())` inside `App.Start`) and replaces the
accumulated output with the new run's output `out` (`a.buf.Reset()` then the
reader loop's writes). -/
inductive UIEvent where
  | typeText (t : String)
  | submit (out : String)

/-- One user event applied to the interactive state. -/
def uiStep (s : UIState) : UIEvent → UIState
  | UIEvent.typeText t => ⟨t, s.hist, s.outBuf⟩
  | UIEvent.submit out => ⟨s.editText, s.hist ++ [GetInputText s.editText], out⟩

/-- Bytes the Ctrl-C handler of src/main.go (first unit) writes to standard
output: `fmt.Printf("%s-- \n", a.buf.String())` followed by
`fmt.Printf("%s: %s\n", getName(), a.ui.GetInputText())`. -/
def ctrlCOutput (name : String) (s : UIState) : String :=
  s.outBuf ++ "-- \n" ++ name ++ ": " ++ GetInputText s.editText ++ "\n"

end GoPlumb

namespace GoPlumb

theorem drop_take_length (l : List Nat) (k : Nat) :
    l.drop (l.take k).length = l.drop k := by
  rw [List.length_take]
  rcases le_or_lt k l.length with h | h
  · rw [Nat.min_eq_left h]
  · rw [Nat.min_eq_right h.le, List.drop_length, List.drop_eq_nil_of_le h.le]

theorem take_append_drop_length (l : List Nat) (k : Nat) :
    l.take k ++ l.drop (l.take k).length = l := by
  rw [drop_take_length, List.take_append_drop]

theorem take_min_length (l : List Nat) (k : Nat) :
    l.take (min k l.length) = l.take k := by
  rcases le_or_lt k l.length with h | h
  · rw [Nat.min_eq_left h]
  · rw [Nat.min_eq_right h.le, List.take_length, List.take_of_length_le h.le]

/-- A tee read delivers exactly the next bytes of the source: the chunk
followed by what remains of the source is what remained before the read. -/
theorem teeRead_chunk_rest (src : List Nat) (st : TeeState) (k : Nat) :
    (teeRead src st k).1 ++ src.drop (teeRead src st k).2.pos = src.drop st.pos := by
  show (src.drop st.pos).take k ++
      src.drop (st.pos + ((src.drop st.pos).take k).length) = src.drop st.pos
  have h : src.drop (st.pos + ((src.drop st.pos).take k).length) =
      (src.drop st.pos).drop ((src.drop st.pos).take k).length := by
    rw [List.drop_drop, Nat.add_comm]
  rw [h, take_append_drop_length]

/-- The tee invariant: if the capture buffer holds exactly the consumed part of
the source before a read, it still does afterwards. -/
theorem teeRead_buf (src : List Nat) (st : TeeState) (k : Nat)
    (h : st.buf = src.take st.pos) :
    (teeRead src st k).2.buf = src.take (teeRead src st k).2.pos := by
  simp only [teeRead, h]
  rw [List.take_add]
  congr 1
  rw [List.length_take, take_min_length]

/-- A tee read never moves the cursor backwards. -/
theorem teeRead_pos_le (src : List Nat) (st : TeeState) (k : Nat) :
    st.pos ≤ (teeRead src st k).2.pos := by
  simp [teeRead]

/-- Invariant and monotonicity of the capture cursor along any sequence of tee
reads. -/
theorem teeRun_inv (src : List Nat) :
    ∀ (ks : List Nat) (st : TeeState), st.buf = src.take st.pos →
      (teeRun src st ks).2.buf = src.take (teeRun src st ks).2.pos ∧
      st.pos ≤ (teeRun src st ks).2.pos := by
  intro ks
  induction ks with
  | nil => intro st h; exact ⟨h, Nat.le_refl _⟩
  | cons k ks ih =>
    intro st h
    have h1 := teeRead_buf src st k h
    have h2 := teeRead_pos_le src st k
    have h3 := ih (teeRead src st k).2 h1
    exact ⟨h3.1, Nat.le_trans h2 h3.2⟩

/-- A replay read delivers exactly the next undelivered bytes: chunk followed
by the new remainder is the old remainder. -/
theorem replayRead_chunk_rest (src : List Nat) (st : ReplayState) (k : Nat) :
    (replayRead src st k).1 ++ restOf src (replayRead src st k).2 = restOf src st := by
  match h : st.snap with
  | [] =>
    simp only [replayRead, h, restOf, List.nil_append]
    exact teeRead_chunk_rest src st.tee k
  | s :: tl =>
    simp only [replayRead, h, restOf]
    rw [← List.append_assoc]
    congr 1
    have := take_append_drop_length (s :: tl) k
    calc (s :: tl).take k ++ (s :: tl).drop k
        = (s :: tl).take k ++ (s :: tl).drop ((s :: tl).take k).length := by
          rw [drop_take_length]
      _ = s :: tl := take_append_drop_length (s :: tl) k

/-- Conservation along any sequence of replay reads: everything delivered,
followed by everything still pending, is exactly what was pending at the
start. -/
theorem replayRun_conserve (src : List Nat) :
    ∀ (ks : List Nat) (st : ReplayState),
      (replayRun src st ks).1.flatten ++ restOf src (replayRun src st ks).2 =
        restOf src st := by
  intro ks
  induction ks with
  | nil => intro st; simp [replayRun]
  | cons k ks ih =>
    intro st
    simp only [replayRun, List.flatten_cons, List.append_assoc]
    rw [ih (replayRead src st k).2, replayRead_chunk_rest]

/-- Claim C1: for every capture state reached by any sequence of raw reads and
every point at which a replay is started (`Rewind`), any sequence of reads of
the replay reader, with buffers of any sizes, delivers first all
already-captured bytes in their original order and then live bytes beginning
exactly at the snapshot length: the delivered bytes plus the pending bytes
reconstitute the whole source, and the delivered bytes are exactly a prefix of
the source — no byte duplicated, none dropped across the snapshot/live-tail
boundary. -/
theorem replay_preserves_capture_order (src : List Nat) (ks0 ks : List Nat) :
    (replayRun src (Rewind (teeRun src ⟨0, []⟩ ks0).2) ks).1.flatten ++
        restOf src (replayRun src (Rewind (teeRun src ⟨0, []⟩ ks0).2) ks).2 = src ∧
    (replayRun src (Rewind (teeRun src ⟨0, []⟩ ks0).2) ks).1.flatten =
      src.take (replayRun src (Rewind (teeRun src ⟨0, []⟩ ks0).2) ks).1.flatten.length := by
  have hbuf : (teeRun src ⟨0, []⟩ ks0).2.buf = src.take (teeRun src ⟨0, []⟩ ks0).2.pos :=
    (teeRun_inv src ks0 ⟨0, []⟩ (by simp)).1
  have hrest : restOf src (Rewind (teeRun src ⟨0, []⟩ ks0).2) = src := by
    simp only [restOf, Rewind, snapshot, hbuf]
    exact List.take_append_drop _ src
  have h1 := replayRun_conserve src ks (Rewind (teeRun src ⟨0, []⟩ ks0).2)
  rw [hrest] at h1
  refine ⟨h1, ?_⟩
  conv_lhs => rw [← List.take_left
    (replayRun src (Rewind (teeRun src ⟨0, []⟩ ks0).2) ks).1.flatten
    (restOf src (replayRun src (Rewind (teeRun src ⟨0, []⟩ ks0).2) ks).2)]
  rw [h1]

/-- Claim C3: for any input stream and any two snapshot points (after `ks1` raw
reads, then after further `ks2` reads), the earlier snapshot is exactly the
prefix of the later one of its own length (so the bytes of a previously
returned snapshot are never mutated by subsequent captures), snapshot lengths
are monotonically non-decreasing, and every snapshot is a prefix of the full
eventual capture (`src.take pos` of its capture cursor, hence a prefix of
`src`). -/
theorem snapshot_monotone_immutable (src ks1 ks2 : List Nat) :
    snapshot (teeRun src ⟨0, []⟩ ks1).2 =
      (snapshot (teeRun src (teeRun src ⟨0, []⟩ ks1).2 ks2).2).take
        (snapshot (teeRun src ⟨0, []⟩ ks1).2).length ∧
    (snapshot (teeRun src ⟨0, []⟩ ks1).2).length ≤
      (snapshot (teeRun src (teeRun src ⟨0, []⟩ ks1).2 ks2).2).length ∧
    snapshot (teeRun src ⟨0, []⟩ ks1).2 = src.take (teeRun src ⟨0, []⟩ ks1).2.pos ∧
    snapshot (teeRun src (teeRun src ⟨0, []⟩ ks1).2 ks2).2 =
      src.take (teeRun src (teeRun src ⟨0, []⟩ ks1).2 ks2).2.pos := by
  set t1 := (teeRun src ⟨0, []⟩ ks1).2 with ht1
  set t2 := (teeRun src t1 ks2).2 with ht2
  have h1 : t1.buf = src.take t1.pos := (teeRun_inv src ks1 ⟨0, []⟩ (by simp)).1
  have h2 : t2.buf = src.take t2.pos ∧ t1.pos ≤ t2.pos := teeRun_inv src ks2 t1 h1
  have hle : t1.pos ≤ t2.pos := h2.2
  refine ⟨?_, ?_, h1, h2.1⟩
  · show t1.buf = t2.buf.take t1.buf.length
    rw [h1, h2.1, List.take_take, List.length_take]
    rcases le_or_lt t1.pos src.length with hc | hc
    · rw [Nat.min_eq_left hc, Nat.min_eq_left hle]
    · rw [Nat.min_eq_right hc.le, Nat.min_eq_left (le_trans hc.le hle),
        List.take_length, List.take_of_length_le hc.le]
  · show t1.buf.length ≤ t2.buf.length
    rw [h1, h2.1, List.length_take, List.length_take]
    omega

theorem aliveAfter_append (l1 l2 : List RunAct) :
    aliveAfter (l1 ++ l2) = l2.foldl aliveStep (aliveAfter l1) := by
  simp [aliveAfter, List.foldl_append]

/-- After the full trace of `n` submits, exactly run `n` is alive. -/
theorem aliveAfter_appTrace (n : Nat) : aliveAfter (appTrace n) = [n] := by
  induction n with
  | zero => simp [appTrace, aliveAfter, aliveStep]
  | succ n ih =>
    rw [appTrace, aliveAfter_append, ih]
    simp [aliveStep]

/-- Claim C2: in the part_000 coordinator, at most one run is alive at any
instant of the trace, for every number of submit events and every trace
prefix; and immediately before each new `start` the previous run has been
cancelled and fully waited for (no run is alive at that point). -/
theorem coordinator_single_active_run :
    (∀ n k : Nat, (aliveAfter ((appTrace n).take k)).length ≤ 1) ∧
    (∀ n : Nat, aliveAfter ((appTrace (n + 1)).dropLast) = []) := by
  constructor
  · intro n
    induction n with
    | zero =>
      intro k
      cases k with
      | zero => simp [appTrace, aliveAfter]
      | succ k => simp [appTrace, aliveAfter, aliveStep]
    | succ n ih =>
      intro k
      rw [appTrace, List.take_append_eq_append_take]
      rcases le_or_lt k (appTrace n).length with hk | hk
      · rw [Nat.sub_eq_zero_of_le hk]
        simpa using ih k
      · rw [List.take_of_length_le hk.le, aliveAfter_append, aliveAfter_appTrace]
        rcases hd : k - (appTrace n).length with _ | _ | _ | d
        · omega
        · simp [aliveStep]
        · simp [aliveStep]
        · rw [List.take_of_length_le (by simp)]
          simp [aliveStep]
  · intro n
    have hsplit : appTrace (n + 1) =
        (appTrace n ++ [RunAct.cancelRun n, RunAct.waitRun n]) ++ [RunAct.start (n + 1)] := by
      rw [appTrace]; simp
    rw [hsplit, List.dropLast_concat, aliveAfter_append, aliveAfter_appTrace]
    simp [aliveStep]

/-- The pump always terminates with the source's terminal error recorded, and
the chunks it sends are exactly the unread snapshot followed by the rest of
the raw source. -/
theorem pump_spec (src : List Nat) (term : GoErr) (st : PumpState) :
    (pump src term st).2 = term ∧
    (pump src term st).1.flatten = st.snap ++ src.drop st.pos := by
  induction st using pump.induct src term with
  | case1 st s tl hs ih =>
    rw [pump.eq_def, hs]
    rw [hs] at ih
    simp only [List.flatten_cons]
    refine ⟨ih.1, ?_⟩
    rw [ih.2]
    simp only [← List.append_assoc]
    rw [List.take_append_drop]
  | case2 st hs h c ih =>
    rw [pump.eq_def, hs, dif_pos h]
    simp only [List.flatten_cons]
    refine ⟨ih.1, ?_⟩
    rw [ih.2]
    simp only [List.nil_append, hs]
    have hd : src.drop (st.pos + ((src.drop st.pos).take bufSize).length) =
        (src.drop st.pos).drop ((src.drop st.pos).take bufSize).length := by
      rw [List.drop_drop, Nat.add_comm]
    rw [hd, take_append_drop_length]
  | case3 st hs h =>
    rw [pump.eq_def, hs, dif_neg h]
    refine ⟨rfl, ?_⟩
    simp [List.drop_eq_nil_of_le (le_of_not_lt h)]

/-- Claim C4: (1) the tee passes every error of the raw source through to its
caller unchanged; (2) on an exhausted source it returns the terminal error
and, when that error is end-of-stream, records it in the `eof` flag; (3) the
channel-based replay reader records the source's terminal error, whatever it
is, as its own terminal state `br.err`, after delivering exactly its snapshot
followed by the remaining live bytes; (4) for a replay reader created after
end-of-stream was reached, the chunks delivered are exactly the snapshot, and
the read issued once the snapshot is drained returns that terminal error
immediately. -/
theorem tee_error_terminal_replay (src : List Nat) (term : GoErr) :
    (∀ (st : TeeEState) (k : Nat),
      (teeReadE src term st k).2.1 = (rawRead src term st.pos k).2) ∧
    (∀ (st : TeeEState) (k : Nat), src.length ≤ st.pos →
      (teeReadE src term st k).1 = [] ∧
      (teeReadE src term st k).2.1 = some term ∧
      (term = GoErr.eof → (teeReadE src term st k).2.2.eof = true)) ∧
    (∀ st : PumpState,
      (pump src term st).2 = term ∧
      (pump src term st).1.flatten = st.snap ++ src.drop st.pos) ∧
    (∀ (snap : List Nat) (pos : Nat), src.length ≤ pos →
      (pump src term ⟨snap, pos⟩).1.flatten = snap ∧
      v2Read (pump src term ⟨snap, pos⟩).1 (pump src term ⟨snap, pos⟩).2
          (pump src term ⟨snap, pos⟩).1.length = ([], some term)) := by
  refine ⟨fun st k => rfl, fun st k h => ?_, pump_spec src term, fun snap pos h => ?_⟩
  · simp only [teeReadE, rawRead, if_pos h]
    exact ⟨trivial, trivial, fun ht => by simp [ht]⟩
  · have hp := pump_spec src term ⟨snap, pos⟩
    have hflat : (pump src term ⟨snap, pos⟩).1.flatten = snap := by
      rw [hp.2]
      simp [List.drop_eq_nil_of_le h]
    refine ⟨hflat, ?_⟩
    rw [v2Read, List.getElem?_eq_none (Nat.le_refl _), hp.1]

/-- Witness for Claim C4 at a concrete exhausted source. -/
theorem tee_error_terminal_replay_witness :
    (2 : Nat) ≤ 2 ∧
    ((teeReadE [5, 6] GoErr.eof ⟨2, [5, 6], false⟩ 4).1 = [] ∧
      (teeReadE [5, 6] GoErr.eof ⟨2, [5, 6], false⟩ 4).2.1 = some GoErr.eof ∧
      (GoErr.eof = GoErr.eof →
        (teeReadE [5, 6] GoErr.eof ⟨2, [5, 6], false⟩ 4).2.2.eof = true)) ∧
    ((pump [5, 6] GoErr.eof ⟨[5, 6], 2⟩).1.flatten = [5, 6] ∧
      v2Read (pump [5, 6] GoErr.eof ⟨[5, 6], 2⟩).1 (pump [5, 6] GoErr.eof ⟨[5, 6], 2⟩).2
          (pump [5, 6] GoErr.eof ⟨[5, 6], 2⟩).1.length = ([], some GoErr.eof)) :=
  ⟨Nat.le_refl 2,
    (tee_error_terminal_replay [5, 6] GoErr.eof).2.1 ⟨2, [5, 6], false⟩ 4 (by decide),
    (tee_error_terminal_replay [5, 6] GoErr.eof).2.2.2 [5, 6] 2 (by decide)⟩

/-- Claim C5: shell resolution uses `SHELL` as the interpreter whenever it is
set and non-empty; otherwise it probes the search path for `bash`, then `sh`,
in that fixed preference order; and when none of these yields an executable it
fails with the `shell not found` error rather than producing a command to run
some other way. -/
theorem getShell_resolution (env : String) (lp : String → String) :
    (env ≠ "" → getShell env lp = Except.ok env) ∧
    (env = "" → lp "bash" ≠ "" → getShell env lp = Except.ok (lp "bash")) ∧
    (env = "" → lp "bash" = "" → lp "sh" ≠ "" →
      getShell env lp = Except.ok (lp "sh")) ∧
    (env = "" → lp "bash" = "" → lp "sh" = "" →
      getShell env lp = Except.error "shell not found") := by
  refine ⟨fun h1 => by simp [getShell, h1],
    fun h1 h2 => by simp [getShell, h1, h2],
    fun h1 h2 h3 => by simp [getShell, h1, h2, h3],
    fun h1 h2 h3 => by simp [getShell, h1, h2, h3]⟩

/-- Witness for Claim C5: a set `SHELL`, and a path with no shell at all. -/
theorem getShell_resolution_witness :
    getShell "/bin/zsh" (fun _ => "") = Except.ok "/bin/zsh" ∧
    getShell "" (fun _ => "") = Except.error "shell not found" :=
  ⟨(getShell_resolution "/bin/zsh" (fun _ => "")).1 (by decide),
    (getShell_resolution "" (fun _ => "")).2.2.2 rfl rfl rfl⟩

/-- Claim C6: when standard input is an interactive terminal, startup returns
the `stdin not found` error (never reaching interactive mode) and the process
exits with code 1; when standard input is not a terminal and a shell is
resolvable, startup proceeds into interactive mode and the exit code is 0. -/
theorem startup_tty_gate (env : String) (lp : String → String) :
    (appRun true env lp = Except.error "stdin not found" ∧
      mainExitCode true env lp = 1) ∧
    ((env ≠ "" ∨ lp "bash" ≠ "" ∨ lp "sh" ≠ "") →
      appRun false env lp = Except.ok () ∧ mainExitCode false env lp = 0) := by
  constructor
  · constructor
    · simp [appRun, getShellTTY]
    · simp [mainExitCode, appRun, getShellTTY]
  · intro hres
    have hok : ∃ s, getShellTTY false env lp = Except.ok s := by
      by_cases h1 : env = ""
      · by_cases h2 : lp "bash" = ""
        · by_cases h3 : lp "sh" = ""
          · rcases hres with h | h | h <;> contradiction
          · exact ⟨lp "sh", by simp [getShellTTY, h1, h2, h3]⟩
        · exact ⟨lp "bash", by simp [getShellTTY, h1, h2]⟩
      · exact ⟨env, by simp [getShellTTY, h1]⟩
    obtain ⟨s, hs⟩ := hok
    exact ⟨by simp [appRun, hs], by simp [mainExitCode, appRun, hs]⟩

/-- Witness for Claim C6: `SHELL=/bin/sh` with an empty search path. -/
theorem startup_tty_gate_witness :
    (("/bin/sh" : String) ≠ "" ∨ ((fun _ => "") : String → String) "bash" ≠ "" ∨
      ((fun _ => "") : String → String) "sh" ≠ "") ∧
    appRun false "/bin/sh" (fun _ => "") = Except.ok () ∧
    mainExitCode false "/bin/sh" (fun _ => "") = 0 :=
  ⟨Or.inl (by decide),
    (startup_tty_gate "/bin/sh" (fun _ => "")).2 (Or.inl (by decide))⟩

/-- Claim C7, counterexample: after appending `a`, `b`, `c` (cursor past the
end, at 3), the first three `Prev()` calls do not yield `a, a, b` — already
the first `Prev()` yields `c`. -/
theorem history_nav_claim_false :
    (histRun ((((History.mk 0 []).Append "a").Append "b").Append "c")
        [HistOp.prev, HistOp.prev, HistOp.prev, HistOp.next, HistOp.next]).1.take 3 ≠
      [some "a", some "a", some "b"] := by
  decide

/-- Claim C7, amended: after appending `a`, `b`, `c` the cursor is 3, past the
end; `prev()` three times yields `c`, `b`, `a` — stepping back to the first
entry — and `next()` twice then yields `b`, `c`, the cursor clamped at both
boundaries throughout. -/
theorem history_nav_actual :
    (histRun ((((History.mk 0 []).Append "a").Append "b").Append "c")
        [HistOp.prev, HistOp.prev, HistOp.prev, HistOp.next, HistOp.next]).1 =
      [some "c", some "b", some "a", some "b", some "c"] := by
  decide

/-- Claim C8, evaluation at the failing input: in the part_000 variant
(`if h.pos > 1`), with history `["a","b"]` and cursor 1 — exactly the state
its two `Append`s produce — `Prev()` leaves the cursor at 1 and returns `b`,
although the one-step move to cursor 0 stays within bounds; the main.go
variant (`if h.pos > 0`) moves to 0 and returns `a` from the same state, as
the specified clamped navigation requires. -/
theorem history_prev_clamp_bug :
    ((History.mk 0 []).appendP0 "a").appendP0 "b" = History.mk 1 ["a", "b"] ∧
    (History.mk 1 ["a", "b"]).prevP0 = (some "b", History.mk 1 ["a", "b"]) ∧
    (History.mk 1 ["a", "b"]).Prev = (some "a", History.mk 0 ["a", "b"]) := by
  decide

/-- Claim C10: on the empty history (no `Append` yet, cursor 0) `Prev` and
`Next` of src/main.go, and `Prev` of the part_000 variant, all read index 0 of
the empty entry list — an out-of-bounds access (`none` here, a panic in Go);
and whenever a navigation access is in bounds, the entry list is non-empty,
i.e. at least one command has been appended. -/
theorem history_empty_out_of_bounds :
    (History.mk 0 []).Prev = (none, History.mk 0 []) ∧
    (History.mk 0 []).Next = (none, History.mk 0 []) ∧
    (History.mk 0 []).prevP0 = (none, History.mk 0 []) ∧
    (∀ h : History, (h.Prev.1.isSome ∨ h.Next.1.isSome) → h.lines ≠ []) := by
  refine ⟨by decide, by decide, by decide, ?_⟩
  intro h hx hnil
  rcases hx with hx | hx <;>
    simp [History.Prev, History.Next, hnil] at hx

/-- Witness for Claim C10: a history with one appended command has an in-bounds
`Prev` access and a non-empty entry list. -/
theorem history_empty_out_of_bounds_witness :
    (History.mk 1 ["a"]).Prev.1.isSome ∧ (History.mk 1 ["a"]).lines ≠ [] :=
  ⟨by decide,
    history_empty_out_of_bounds.2.2.2 (History.mk 1 ["a"]) (Or.inl (by decide))⟩

/-- Claim C9, counterexample: when the user edits the command line after the
last submit, the Ctrl-C transcript ends with the edited text, not with the
last submitted command.  After typing `foo`, submitting it (run output
`OUT\n`), then typing `bar`: the last submitted command is `foo`, but the
transcript printed on interrupt is not `accumulated ++ delimiter ++ name ++
": " ++ "foo" ++ newline`. -/
theorem ctrlc_prints_edited_text :
    (uiStep (uiStep (uiStep ⟨"", [], ""⟩ (UIEvent.typeText "foo"))
        (UIEvent.submit "OUT\n")) (UIEvent.typeText "bar")).hist.getLast? =
      some "foo" ∧
    ctrlCOutput "goplumb" (uiStep (uiStep (uiStep ⟨"", [], ""⟩
        (UIEvent.typeText "foo")) (UIEvent.submit "OUT\n"))
        (UIEvent.typeText "bar")) ≠
      "OUT\n" ++ "-- \n" ++ "goplumb" ++ ": " ++ "foo" ++ "\n" := by
  constructor
  · decide
  · decide

/-- Claim C9, amended: on interrupt/quit the tool writes exactly the
accumulated output of the last run, then the delimiter line, then a line with
the program name and the current command-input text (trimmed, defaulting to
`cat`); when the interrupt arrives with the input field unedited since the
last submit, that text is exactly the last submitted command. -/
theorem ctrlc_transcript (name out : String) (s : UIState) :
    ctrlCOutput name (uiStep s (UIEvent.submit out)) =
      out ++ "-- \n" ++ name ++ ": " ++ GetInputText s.editText ++ "\n" ∧
    (uiStep s (UIEvent.submit out)).hist.getLast? =
      some (GetInputText s.editText) := by
  refine ⟨rfl, ?_⟩
  simp [uiStep]

end GoPlumb
